import Mathlib

/-!
Shallow embedding of `src/tmp.py`, a Monte-Carlo power analysis script for
an A/B test on click-through rates.

Modelling conventions:

* IEEE floating-point values are modelled by `PyFloat`: an exact real number,
  NaN, or a signed infinity.  The script only manufactures non-finite values
  through `np.sqrt` of a negative number (NaN) and division by zero
  (`0/0 = NaN`, `x/0 = ±inf` for `x ≠ 0`, numpy semantics with a `+0`
  divisor); rounding error is abstracted away, as no claim depends on it.
* The process-wide random generator is modelled as an oracle: the two
  `np.random.binomial(n, p, num_simulations)` draws of `calculate_power`
  become explicit arguments `successes_control successes_treatment :
  Fin reps → ℕ`, constrained in theorems to the support of the binomial
  distribution (`binom_support`).
* `scipy.stats.norm.ppf` is external library code; it is modelled by the
  mathematical quantile function `normPpf` of the standard normal
  distribution (infimum of the upper level set of the CDF).
* A Python call that may raise is modelled with `Except String`; numpy's
  `binomial` raises `ValueError` when a probability lies outside `[0, 1]`,
  which is the only raise reachable from `calculate_power`'s body, so the
  checked entry point `calculate_power_checked` models exactly that check.
* The `try/except` loop of `plot_power_analysis` (lines 51-58) is modelled
  by `power_loop`, parameterised over the per-size estimator outcome so the
  hypothetical-failure claims can quantify over it.
-/

namespace Tmp

noncomputable section

/-- IEEE-style floating point value: NaN, +inf, -inf, or a finite real. -/
inductive PyFloat : Type where
  | nan : PyFloat
  | pinf : PyFloat
  | ninf : PyFloat
  | val : ℝ → PyFloat

/-- Absolute value (`np.abs`): NaN propagates, both infinities map to +inf. -/
def pfAbs : PyFloat → PyFloat
  | .nan => .nan
  | .pinf => .pinf
  | .ninf => .pinf
  | .val x => .val |x|

/-- IEEE division with a `+0`-signed zero divisor (the only zero this script
can produce, via `np.sqrt`): `0/0 = NaN`, `x/+0 = ±inf` for `x ≠ 0`,
NaN propagates, `inf/inf = NaN`, finite/inf = 0. -/
def pfDiv : PyFloat → PyFloat → PyFloat
  | .nan, _ => .nan
  | _, .nan => .nan
  | .pinf, .pinf => .nan
  | .pinf, .ninf => .nan
  | .ninf, .pinf => .nan
  | .ninf, .ninf => .nan
  | .pinf, .val y => if 0 ≤ y then .pinf else .ninf
  | .ninf, .val y => if 0 ≤ y then .ninf else .pinf
  | .val _, .pinf => .val 0
  | .val _, .ninf => .val 0
  | .val x, .val y =>
      if y = 0 then (if x = 0 then .nan else if 0 < x then .pinf else .ninf)
      else .val (x / y)

/-- IEEE strict greater-than: any comparison with NaN is `false`,
+inf exceeds everything but itself and NaN. -/
def pfGt : PyFloat → PyFloat → Bool
  | .nan, _ => false
  | _, .nan => false
  | .pinf, .pinf => false
  | .pinf, _ => true
  | .ninf, _ => false
  | .val _, .pinf => false
  | .val _, .ninf => true
  | .val x, .val y => decide (y < x)

/-- `np.sqrt`: NaN on a negative argument, otherwise the real square root. -/
def npSqrt (x : ℝ) : PyFloat :=
  if x < 0 then .nan else .val (Real.sqrt x)

/-- `np.mean` over a boolean array: fraction of `true` entries, NaN when the
array is empty. -/
def npMean (reps : ℕ) (b : Fin reps → Bool) : PyFloat :=
  if reps = 0 then .nan
  else .val (((Finset.univ.filter fun i => b i = true).card : ℝ) / (reps : ℝ))

/-- CDF of the standard normal distribution (models the distribution behind
`scipy.stats.norm`). -/
def stdNormCdf (x : ℝ) : ℝ :=
  (∫ t in Set.Iic x, Real.exp (-(t ^ 2) / 2)) / Real.sqrt (2 * Real.pi)

/-- Quantile function of the standard normal distribution
(models `scipy.stats.norm.ppf`, external library code). -/
def normPpf (p : ℝ) : ℝ :=
  sInf {x : ℝ | p ≤ stdNormCdf x}

/-- Support of the `Binomial(n, p)` distribution: the values
`np.random.binomial(n, p)` can return. -/
def binom_support (n : ℕ) (p : ℝ) (k : ℕ) : Prop :=
  k ≤ n ∧ (p = 0 → k = 0) ∧ (p = 1 → k = n)

/-- Line 8: `alpha = 0.05`, the significance level. -/
def alpha : ℝ := 0.05

/-- Line 9: `desired_power = 0.8`, the target power (informational). -/
def desired_power : ℝ := 0.8

/-- Line 10: `num_simulations = 10000`, repetitions per estimate. -/
def num_simulations : ℕ := 10000

/-- `np.arange(start, stop, step)` for naturals with a positive step:
`start, start+step, ...` strictly below `stop`. -/
def np_arange (start stop step : ℕ) : List ℕ :=
  (List.range ((stop - start + step - 1) / step)).map fun k => start + step * k

/-- Line 11: `sample_sizes = np.arange(500, 15000, 1000)`. -/
def sample_sizes : List ℕ := np_arange 500 15000 1000

/-- Line 31: `pooled_prob = (successes_control + successes_treatment) / (2 * n)`,
per trial. -/
def pooled_prob (n sc st : ℕ) : ℝ :=
  ((sc : ℝ) + (st : ℝ)) / (2 * (n : ℝ))

/-- Line 32: `pooled_se = np.sqrt(2 * pooled_prob * (1 - pooled_prob) / n)`,
per trial. -/
def pooled_se (n : ℕ) (p : ℝ) : PyFloat :=
  npSqrt (2 * p * (1 - p) / (n : ℝ))

/-- Line 35: `z_scores = (successes_treatment / n - successes_control / n) / pooled_se`,
per trial. -/
def z_score (n sc st : ℕ) : PyFloat :=
  pfDiv (.val ((st : ℝ) / (n : ℝ) - (sc : ℝ) / (n : ℝ)))
    (pooled_se n (pooled_prob n sc st))

/-- Line 38: `critical_value = stats.norm.ppf(1 - alpha / 2)`. -/
def critical_value (alpha : ℝ) : ℝ := normPpf (1 - alpha / 2)

/-- Lines 13-42: `calculate_power`.  The two binomial draws of lines 27-28 are
supplied by the oracle arguments `successes_control`, `successes_treatment`;
the unused probability parameters are kept to mirror the Python signature.
Line 41: `power = np.mean(np.abs(z_scores) > critical_value)`. -/
def calculate_power (n : ℕ) (p_control p_treatment alpha : ℝ) (reps : ℕ)
    (successes_control successes_treatment : Fin reps → ℕ) : PyFloat :=
  npMean reps fun i =>
    pfGt (pfAbs (z_score n (successes_control i) (successes_treatment i)))
      (.val (critical_value alpha))

/-- Entry point with numpy's `binomial` argument validation (the only raise
reachable from the body of `calculate_power`): `ValueError` when a
probability lies outside `[0, 1]`. -/
def calculate_power_checked (n : ℕ) (p_control p_treatment alpha : ℝ)
    (reps : ℕ) (successes_control successes_treatment : Fin reps → ℕ) :
    Except String PyFloat :=
  if p_control < 0 ∨ 1 < p_control then .error "p < 0, p > 1 or p contains NaNs"
  else if p_treatment < 0 ∨ 1 < p_treatment then .error "p < 0, p > 1 or p contains NaNs"
  else .ok (calculate_power n p_control p_treatment alpha reps
    successes_control successes_treatment)

/-- Line 58: the message printed when estimation for one sample size raises. -/
def error_msg (n : ℕ) (e : String) : String :=
  "Error calculating power for sample size " ++ toString n ++ ": " ++ e

/-- One iteration of the loop of lines 52-58: on success append `(n, power)`
to the results, on an exception record the report message instead. -/
def power_loop_step {α : Type} (f : ℕ → Except String α)
    (acc : List (ℕ × α) × List String) (n : ℕ) : List (ℕ × α) × List String :=
  match f n with
  | .ok p => (acc.1 ++ [(n, p)], acc.2)
  | .error e => (acc.1, acc.2 ++ [error_msg n e])

/-- Lines 51-58: the driver loop, returning the accumulated plot series and
the error reports.  The loop itself never lets an exception escape. -/
def power_loop {α : Type} (f : ℕ → Except String α) (sizes : List ℕ) :
    List (ℕ × α) × List String :=
  sizes.foldl (power_loop_step f) ([], [])

/-- Lines 44-58 (computational part of `plot_power_analysis`): run the
estimator over the fixed sample-size grid with the module constants.
The per-size draw oracles are indexed by the sample size. -/
def plot_power_analysis (p_control p_treatment : ℝ)
    (sc st : ℕ → Fin num_simulations → ℕ) :
    List (ℕ × PyFloat) × List String :=
  power_loop
    (fun n => calculate_power_checked n p_control p_treatment alpha
      num_simulations (sc n) (st n))
    sample_sizes

/-- Spec-side z-score, written from the spec's words: "(treatment_rate −
control_rate) / pooled_standard_error, where each rate is successes/n",
with the pooled quantities of spec steps 2-3 inlined. -/
def spec_z_score (n sc st : ℕ) : PyFloat :=
  pfDiv (.val ((st : ℝ) / (n : ℝ) - (sc : ℝ) / (n : ℝ)))
    (npSqrt (2 * (((sc : ℝ) + (st : ℝ)) / (2 * (n : ℝ)))
      * (1 - ((sc : ℝ) + (st : ℝ)) / (2 * (n : ℝ))) / (n : ℝ)))

/-- Spec-side estimated power: "fraction of the repetitions simulated trials
in which the absolute z-score strictly exceeds the (1 − alpha/2) quantile
of the standard normal distribution". -/
def spec_fraction (n : ℕ) (alpha : ℝ) (reps : ℕ) (sc st : Fin reps → ℕ) : ℝ :=
  ((Finset.univ.filter fun i =>
      pfGt (pfAbs (spec_z_score n (sc i) (st i)))
        (.val (normPpf (1 - alpha / 2))) = true).card : ℝ) / (reps : ℝ)

/-! Helper lemmas. -/

lemma pfAbs_nan : pfAbs .nan = .nan := rfl

lemma pfGt_nan_left (b : PyFloat) : pfGt .nan b = false := by cases b <;> rfl

lemma pooled_prob_zero (n : ℕ) : pooled_prob n 0 0 = 0 := by
  simp [pooled_prob]

lemma pooled_se_at_zero (n : ℕ) : pooled_se n 0 = .val 0 := by
  simp [pooled_se, npSqrt]

lemma pfDiv_val_zero_zero : pfDiv (.val 0) (.val 0) = .nan := by
  simp [pfDiv]

lemma z_score_zero_draws (n : ℕ) : z_score n 0 0 = .nan := by
  simp [z_score, pooled_prob_zero, pooled_se_at_zero, pfDiv]

lemma npMean_val (reps : ℕ) (hreps : 0 < reps) (b : Fin reps → Bool) :
    ∃ r : ℝ, npMean reps b = .val r ∧ 0 ≤ r ∧ r ≤ 1 := by
  refine ⟨((Finset.univ.filter fun i => b i = true).card : ℝ) / (reps : ℝ),
    by simp [npMean, hreps.ne'], by positivity, ?_⟩
  rw [div_le_one (by exact_mod_cast hreps)]
  exact_mod_cast (Finset.card_filter_le _ _).trans_eq (by simp)

lemma calculate_power_val (n : ℕ) (p_control p_treatment alpha : ℝ)
    (reps : ℕ) (sc st : Fin reps → ℕ) (hreps : 0 < reps) :
    ∃ r : ℝ, calculate_power n p_control p_treatment alpha reps sc st = .val r ∧
      0 ≤ r ∧ r ≤ 1 :=
  npMean_val reps hreps _

lemma pooled_prob_mem (n sc st : ℕ) (hn : 0 < n) (hsc : sc ≤ n) (hst : st ≤ n) :
    0 ≤ pooled_prob n sc st ∧ pooled_prob n sc st ≤ 1 := by
  have hnR : (0 : ℝ) < n := by exact_mod_cast hn
  constructor
  · exact div_nonneg (by positivity) (by positivity)
  · rw [pooled_prob, div_le_one (by linarith)]
    have h1 : (sc : ℝ) ≤ n := by exact_mod_cast hsc
    have h2 : (st : ℝ) ≤ n := by exact_mod_cast hst
    linarith

lemma pooled_se_val_of_mem (n : ℕ) (p : ℝ) (hp0 : 0 ≤ p) (hp1 : p ≤ 1) :
    pooled_se n p = .val (Real.sqrt (2 * p * (1 - p) / (n : ℝ))) := by
  rw [pooled_se, npSqrt, if_neg]
  push_neg
  have : (0 : ℝ) ≤ 2 * p * (1 - p) := by nlinarith
  positivity

lemma card_filter_fin_one (p : Fin 1 → Prop) [DecidablePred p] :
    (Finset.univ.filter p).card = 0 ∨ (Finset.univ.filter p).card = 1 :=
  Nat.le_one_iff_eq_zero_or_eq_one.mp
    ((Finset.card_filter_le _ _).trans_eq (by simp))

lemma zero_se_z_nan (n sc st : ℕ) (hn : 0 < n) (hsc : sc ≤ n) (hst : st ≤ n)
    (h : pooled_se n (pooled_prob n sc st) = .val 0) :
    z_score n sc st = .nan := by
  have hnR : (0 : ℝ) < n := by exact_mod_cast hn
  set p := pooled_prob n sc st with hp
  have harg : 2 * p * (1 - p) / (n : ℝ) = 0 := by
    by_cases hneg : 2 * p * (1 - p) / (n : ℝ) < 0
    · exfalso
      rw [pooled_se, npSqrt, if_pos hneg] at h
      exact PyFloat.noConfusion h
    · rw [pooled_se, npSqrt, if_neg hneg] at h
      have hsq : Real.sqrt (2 * p * (1 - p) / (n : ℝ)) = 0 :=
        PyFloat.val.inj h
      have h0 : 0 ≤ 2 * p * (1 - p) / (n : ℝ) := not_lt.mp hneg
      nlinarith [Real.sq_sqrt h0, hsq]
  have hprod : 2 * p * (1 - p) = 0 :=
    (div_eq_zero_iff.mp harg).resolve_right (by exact_mod_cast hn.ne')
  have hcases : p = 0 ∨ p = 1 := by
    rcases mul_eq_zero.mp hprod with h1 | h2
    · left
      rcases mul_eq_zero.mp h1 with h2 | h3
      · norm_num at h2
      · exact h3
    · right; linarith
  have hscst : (sc : ℝ) = (st : ℝ) := by
    rcases hcases with h0 | h1
    · rw [hp, pooled_prob, div_eq_zero_iff] at h0
      rcases h0 with h0 | h0
      · have h1 : (0 : ℝ) ≤ (sc : ℝ) := Nat.cast_nonneg sc
        have h2 : (0 : ℝ) ≤ (st : ℝ) := Nat.cast_nonneg st
        linarith
      · exfalso; nlinarith
    · rw [hp, pooled_prob, div_eq_one_iff_eq (by positivity)] at h1
      have h1' : (sc : ℝ) ≤ n := by exact_mod_cast hsc
      have h2' : (st : ℝ) ≤ n := by exact_mod_cast hst
      linarith
  have hdiff : (st : ℝ) / (n : ℝ) - (sc : ℝ) / (n : ℝ) = 0 := by
    rw [hscst]; ring
  rw [z_score, ← hp, h, hdiff, pfDiv_val_zero_zero]

/-! Claim theorems. -/

/-- C9: the fixed, non-UI-exposed parameters are significance level 0.05,
target power 0.8, 10000 repetitions per estimate, and a sample-size grid of
500, 1500, 2500, and so on in steps of 1000 up to but excluding 15000,
giving exactly 15 grid points. -/
theorem C9_fixed_parameters :
    alpha = 0.05 ∧ desired_power = 0.8 ∧ num_simulations = 10000 ∧
    sample_sizes = [500, 1500, 2500, 3500, 4500, 5500, 6500, 7500, 8500,
      9500, 10500, 11500, 12500, 13500, 14500] ∧
    sample_sizes.length = 15 ∧
    ∀ m ∈ sample_sizes, 500 ≤ m ∧ m < 15000 ∧ (m - 500) % 1000 = 0 :=
  ⟨rfl, rfl, rfl, by decide, by decide, by decide⟩

/-- C7: for every positive sample size `n`, probabilities in `[0,1]` and
significance level in `(0,1)`, calling the estimator with `repetitions = 1`
returns exactly 0 or exactly 1 (and, the definition being total, does not
raise). -/
theorem C7_single_repetition (n : ℕ) (p_control p_treatment alpha : ℝ)
    (sc st : Fin 1 → ℕ) (hn : 0 < n)
    (hpc : 0 ≤ p_control ∧ p_control ≤ 1)
    (hpt : 0 ≤ p_treatment ∧ p_treatment ≤ 1)
    (ha : 0 < alpha ∧ alpha < 1) :
    calculate_power n p_control p_treatment alpha 1 sc st = .val 0 ∨
      calculate_power n p_control p_treatment alpha 1 sc st = .val 1 := by
  rcases card_filter_fin_one (fun i =>
      pfGt (pfAbs (z_score n (sc i) (st i))) (.val (critical_value alpha))
        = true) with h | h
  · left
    rw [calculate_power, npMean, if_neg one_ne_zero, h]
    norm_num
  · right
    rw [calculate_power, npMean, if_neg one_ne_zero, h]
    norm_num

/-- C7 witness: concrete instance with `n = 1`, both probabilities 0,
`alpha = 1/2`, and the all-zero draw. -/
theorem C7_single_repetition_witness :
    (0 < 1 ∧ (0 : ℝ) ≤ 0 ∧ (0 : ℝ) ≤ 1 ∧ (0 : ℝ) < 1 / 2 ∧ (1 : ℝ) / 2 < 1) ∧
    (calculate_power 1 0 0 (1 / 2) 1 (fun _ => 0) (fun _ => 0) = .val 0 ∨
      calculate_power 1 0 0 (1 / 2) 1 (fun _ => 0) (fun _ => 0) = .val 1) :=
  ⟨by norm_num,
    C7_single_repetition 1 0 0 (1 / 2) (fun _ => 0) (fun _ => 0)
      (by norm_num) (by norm_num) (by norm_num) (by norm_num)⟩

/-- C3: for valid inputs the returned power is either a real number in
`[0,1]` or NaN — never negative and never greater than 1. -/
theorem C3_power_in_unit_interval_or_nan (n : ℕ)
    (p_control p_treatment alpha : ℝ) (reps : ℕ) (sc st : Fin reps → ℕ)
    (hn : 0 < n) (hpc : 0 ≤ p_control ∧ p_control ≤ 1)
    (hpt : 0 ≤ p_treatment ∧ p_treatment ≤ 1)
    (ha : 0 < alpha ∧ alpha < 1) (hreps : 0 < reps) :
    calculate_power n p_control p_treatment alpha reps sc st = .nan ∨
      ∃ r : ℝ, calculate_power n p_control p_treatment alpha reps sc st
        = .val r ∧ 0 ≤ r ∧ r ≤ 1 :=
  Or.inr (calculate_power_val n p_control p_treatment alpha reps sc st hreps)

/-- C3 witness: concrete instance with `n = 1`, both probabilities 0,
`alpha = 1/2`, one repetition, and the all-zero draw. -/
theorem C3_power_in_unit_interval_or_nan_witness :
    (0 < 1 ∧ (0 : ℝ) ≤ 0 ∧ (0 : ℝ) ≤ 1 ∧ (0 : ℝ) < 1 / 2 ∧ (1 : ℝ) / 2 < 1) ∧
    (calculate_power 1 0 0 (1 / 2) 1 (fun _ => 0) (fun _ => 0) = .nan ∨
      ∃ r : ℝ, calculate_power 1 0 0 (1 / 2) 1 (fun _ => 0) (fun _ => 0)
        = .val r ∧ 0 ≤ r ∧ r ≤ 1) :=
  ⟨by norm_num,
    C3_power_in_unit_interval_or_nan 1 0 0 (1 / 2) 1 (fun _ => 0) (fun _ => 0)
      (by norm_num) (by norm_num) (by norm_num) (by norm_num) (by norm_num)⟩

/-- C10: for every valid input (draws lying in the binomial support), the
returned power is always a finite real number in `[0,1]` and is never NaN,
even when some trial has a zero pooled standard error: NaN or infinite
z-scores still yield a boolean per trial, so the mean stays in `[0,1]`. -/
theorem C10_power_never_nan (n : ℕ) (p_control p_treatment alpha : ℝ)
    (reps : ℕ) (sc st : Fin reps → ℕ) (hn : 0 < n)
    (hpc : 0 ≤ p_control ∧ p_control ≤ 1)
    (hpt : 0 ≤ p_treatment ∧ p_treatment ≤ 1)
    (ha : 0 < alpha ∧ alpha < 1) (hreps : 0 < reps)
    (hsc : ∀ i, binom_support n p_control (sc i))
    (hst : ∀ i, binom_support n p_treatment (st i)) :
    ∃ r : ℝ, calculate_power n p_control p_treatment alpha reps sc st
        = .val r ∧ 0 ≤ r ∧ r ≤ 1 ∧
      calculate_power n p_control p_treatment alpha reps sc st ≠ .nan := by
  obtain ⟨r, hr, h0, h1⟩ :=
    calculate_power_val n p_control p_treatment alpha reps sc st hreps
  exact ⟨r, hr, h0, h1, by rw [hr]; exact fun h => PyFloat.noConfusion h⟩

/-- C10 witness: concrete instance with `n = 1`, both probabilities 0,
`alpha = 1/2`, one repetition, and the all-zero draw (the zero-SE case). -/
theorem C10_power_never_nan_witness :
    (0 < 1 ∧ (0 : ℝ) ≤ 0 ∧ (0 : ℝ) ≤ 1 ∧ (0 : ℝ) < 1 / 2 ∧ (1 : ℝ) / 2 < 1 ∧
      binom_support 1 0 0) ∧
    (∃ r : ℝ, calculate_power 1 0 0 (1 / 2) 1 (fun _ => 0) (fun _ => 0)
        = .val r ∧ 0 ≤ r ∧ r ≤ 1 ∧
      calculate_power 1 0 0 (1 / 2) 1 (fun _ => 0) (fun _ => 0) ≠ .nan) :=
  ⟨by constructor <;> norm_num [binom_support],
    C10_power_never_nan 1 0 0 (1 / 2) 1 (fun _ => 0) (fun _ => 0)
      (by norm_num) (by norm_num) (by norm_num) (by norm_num) (by norm_num)
      (fun _ => by norm_num [binom_support])
      (fun _ => by norm_num [binom_support])⟩

/-- C1: for every valid call, the returned power equals the fraction of the
simulated trials in which the absolute z-score — `(treatment_rate −
control_rate) / pooled_standard_error`, each rate being `successes/n` —
strictly exceeds the `(1 − alpha/2)` quantile of the standard normal
distribution (`spec_fraction`, written from the spec's words). -/
theorem C1_power_eq_spec_fraction (n : ℕ) (p_control p_treatment alpha : ℝ)
    (reps : ℕ) (sc st : Fin reps → ℕ) (hn : 0 < n)
    (hpc : 0 ≤ p_control ∧ p_control ≤ 1)
    (hpt : 0 ≤ p_treatment ∧ p_treatment ≤ 1)
    (ha : 0 < alpha ∧ alpha < 1) (hreps : 0 < reps) :
    calculate_power n p_control p_treatment alpha reps sc st
      = .val (spec_fraction n alpha reps sc st) := by
  have hz : ∀ a b : ℕ, z_score n a b = spec_z_score n a b := fun a b => rfl
  rw [calculate_power, npMean, if_neg hreps.ne', spec_fraction]
  simp only [hz, critical_value]

/-- C1 witness: concrete instance with `n = 1`, both probabilities 0,
`alpha = 1/2`, one repetition, and the all-zero draw. -/
theorem C1_power_eq_spec_fraction_witness :
    (0 < 1 ∧ (0 : ℝ) ≤ 0 ∧ (0 : ℝ) ≤ 1 ∧ (0 : ℝ) < 1 / 2 ∧ (1 : ℝ) / 2 < 1) ∧
    calculate_power 1 0 0 (1 / 2) 1 (fun _ => 0) (fun _ => 0)
      = .val (spec_fraction 1 (1 / 2) 1 (fun _ => 0) (fun _ => 0)) :=
  ⟨by norm_num,
    C1_power_eq_spec_fraction 1 0 0 (1 / 2) 1 (fun _ => 0) (fun _ => 0)
      (by norm_num) (by norm_num) (by norm_num) (by norm_num) (by norm_num)⟩

/-- C2: in every simulated trial, the pooled success proportion equals
`(control successes + treatment successes) / (2n)` and the pooled standard
error used in that trial's z-score equals
`sqrt(2 · pooled_proportion · (1 − pooled_proportion) / n)`. -/
theorem C2_pooled_quantities (n reps : ℕ) (sc st : Fin reps → ℕ) (i : Fin reps)
    (hn : 0 < n) (hsc : sc i ≤ n) (hst : st i ≤ n) :
    pooled_prob n (sc i) (st i) = ((sc i : ℝ) + (st i : ℝ)) / (2 * (n : ℝ)) ∧
    pooled_se n (pooled_prob n (sc i) (st i))
      = .val (Real.sqrt (2 * pooled_prob n (sc i) (st i)
          * (1 - pooled_prob n (sc i) (st i)) / (n : ℝ))) ∧
    z_score n (sc i) (st i)
      = pfDiv (.val ((st i : ℝ) / (n : ℝ) - (sc i : ℝ) / (n : ℝ)))
          (.val (Real.sqrt (2 * pooled_prob n (sc i) (st i)
            * (1 - pooled_prob n (sc i) (st i)) / (n : ℝ)))) := by
  obtain ⟨hp0, hp1⟩ := pooled_prob_mem n (sc i) (st i) hn hsc hst
  have hse := pooled_se_val_of_mem n (pooled_prob n (sc i) (st i)) hp0 hp1
  exact ⟨rfl, hse, by rw [z_score, hse]⟩

/-- C2 witness: concrete instance with `n = 1`, one repetition, the all-zero
draw, and trial index 0. -/
theorem C2_pooled_quantities_witness :
    (0 < 1 ∧ (0 : ℕ) ≤ 1) ∧
    (pooled_prob 1 0 0 = (((0 : ℕ) : ℝ) + ((0 : ℕ) : ℝ)) / (2 * ((1 : ℕ) : ℝ)) ∧
     pooled_se 1 (pooled_prob 1 0 0)
       = .val (Real.sqrt (2 * pooled_prob 1 0 0
           * (1 - pooled_prob 1 0 0) / ((1 : ℕ) : ℝ))) ∧
     z_score 1 0 0
       = pfDiv (.val (((0 : ℕ) : ℝ) / ((1 : ℕ) : ℝ) - ((0 : ℕ) : ℝ) / ((1 : ℕ) : ℝ)))
           (.val (Real.sqrt (2 * pooled_prob 1 0 0
             * (1 - pooled_prob 1 0 0) / ((1 : ℕ) : ℝ))))) :=
  ⟨by norm_num,
    C2_pooled_quantities 1 1 (fun _ => 0) (fun _ => 0) 0
      (by norm_num) (by norm_num) (by norm_num)⟩

/-- C4 counterexample: at the valid input `n = 5`, `p_control = p_treatment
= 0`, `alpha = 1/20`, one repetition and the (only possible) all-zero draw,
the zero-pooled-standard-error degeneracy occurs — the trial's pooled
proportion is 0 and its pooled SE is `+0.0` — yet the estimator returns the
finite value `0.0`, not NaN, because the trial's NaN z-score fails the
strict comparison and counts as a non-rejection. -/
theorem C4_counterexample :
    binom_support 5 (0 : ℝ) 0 ∧ (0 : ℝ) < 1 / 20 ∧ (1 : ℝ) / 20 < 1 ∧
    pooled_prob 5 0 0 = 0 ∧
    pooled_se 5 (pooled_prob 5 0 0) = .val 0 ∧
    z_score 5 0 0 = .nan ∧
    calculate_power 5 0 0 (1 / 20) 1 (fun _ => 0) (fun _ => 0) = .val 0 ∧
    PyFloat.val (0 : ℝ) ≠ PyFloat.nan := by
  refine ⟨⟨by norm_num, fun _ => rfl, by norm_num⟩, by norm_num, by norm_num,
    pooled_prob_zero 5, ?_, z_score_zero_draws 5, ?_, fun h => PyFloat.noConfusion h⟩
  · rw [pooled_prob_zero, pooled_se_at_zero]
  · rw [calculate_power, npMean, if_neg one_ne_zero]
    have hfilter : (Finset.univ.filter fun i : Fin 1 =>
        pfGt (pfAbs (z_score 5 ((fun _ : Fin 1 => 0) i) ((fun _ : Fin 1 => 0) i)))
          (.val (critical_value (1 / 20))) = true) = ∅ := by
      apply Finset.filter_false_of_mem
      intro i _
      rw [z_score_zero_draws, pfAbs_nan, pfGt_nan_left]
      exact Bool.false_ne_true
    rw [hfilter]
    norm_num

/-- C4 amended: in the zero-pooled-standard-error edge case the trial's
z-score is indeed non-numeric (NaN), but this does not propagate to the
result: the NaN fails the strict comparison, so even when some trial is
degenerate the estimator returns a finite real power in `[0,1]`, never
NaN. -/
theorem C4_amended_zero_se_still_finite (n : ℕ)
    (p_control p_treatment alpha : ℝ) (reps : ℕ) (sc st : Fin reps → ℕ)
    (hn : 0 < n) (hpc : 0 ≤ p_control ∧ p_control ≤ 1)
    (hpt : 0 ≤ p_treatment ∧ p_treatment ≤ 1)
    (ha : 0 < alpha ∧ alpha < 1) (hreps : 0 < reps)
    (hsc : ∀ i, sc i ≤ n) (hst : ∀ i, st i ≤ n)
    (hdeg : ∃ i, pooled_se n (pooled_prob n (sc i) (st i)) = .val 0) :
    (∀ i, pooled_se n (pooled_prob n (sc i) (st i)) = .val 0 →
      z_score n (sc i) (st i) = .nan) ∧
    ∃ r : ℝ, calculate_power n p_control p_treatment alpha reps sc st
        = .val r ∧ 0 ≤ r ∧ r ≤ 1 ∧
      calculate_power n p_control p_treatment alpha reps sc st ≠ .nan := by
  obtain ⟨r, hr, h0, h1⟩ :=
    calculate_power_val n p_control p_treatment alpha reps sc st hreps
  exact ⟨fun i hi => zero_se_z_nan n (sc i) (st i) hn (hsc i) (hst i) hi,
    r, hr, h0, h1, by rw [hr]; exact fun h => PyFloat.noConfusion h⟩

/-- C4 amended witness: the degenerate input of the counterexample
(`n = 5`, both probabilities 0, `alpha = 1/20`, one repetition, all-zero
draw), whose only trial has a zero pooled standard error. -/
theorem C4_amended_zero_se_still_finite_witness :
    (0 < 5 ∧ (0 : ℝ) ≤ 0 ∧ (0 : ℝ) ≤ 1 ∧ (0 : ℝ) < 1 / 20 ∧ (1 : ℝ) / 20 < 1 ∧
      (∃ i : Fin 1, pooled_se 5 (pooled_prob 5 0 0) = .val 0)) ∧
    ((∀ i : Fin 1, pooled_se 5 (pooled_prob 5 0 0) = .val 0 →
        z_score 5 0 0 = .nan) ∧
      ∃ r : ℝ, calculate_power 5 0 0 (1 / 20) 1 (fun _ => 0) (fun _ => 0)
          = .val r ∧ 0 ≤ r ∧ r ≤ 1 ∧
        calculate_power 5 0 0 (1 / 20) 1 (fun _ => 0) (fun _ => 0) ≠ .nan) :=
  ⟨⟨by norm_num, by norm_num, by norm_num, by norm_num, by norm_num,
      ⟨0, by rw [pooled_prob_zero, pooled_se_at_zero]⟩⟩,
    C4_amended_zero_se_still_finite 5 0 0 (1 / 20) 1 (fun _ => 0) (fun _ => 0)
      (by norm_num) (by norm_num) (by norm_num) (by norm_num) (by norm_num)
      (fun _ => by norm_num) (fun _ => by norm_num)
      ⟨0, by rw [pooled_prob_zero, pooled_se_at_zero]⟩⟩

/-- C5: for every valid input the checked entry point (which models the only
raise reachable from the body, numpy's probability validation) returns
`ok` rather than an error, and the zero-pooled-SE numeric edge case
produces a NaN z-score rather than an error. -/
theorem C5_no_exception (n : ℕ) (p_control p_treatment alpha : ℝ)
    (reps : ℕ) (sc st : Fin reps → ℕ) (hn : 0 < n)
    (hpc : 0 ≤ p_control ∧ p_control ≤ 1)
    (hpt : 0 ≤ p_treatment ∧ p_treatment ≤ 1)
    (ha : 0 < alpha ∧ alpha < 1) (hreps : 0 < reps)
    (hsc : ∀ i, sc i ≤ n) (hst : ∀ i, st i ≤ n) :
    calculate_power_checked n p_control p_treatment alpha reps sc st
      = .ok (calculate_power n p_control p_treatment alpha reps sc st) ∧
    ∀ i, pooled_se n (pooled_prob n (sc i) (st i)) = .val 0 →
      z_score n (sc i) (st i) = .nan := by
  constructor
  · rw [calculate_power_checked, if_neg (by push_neg; exact ⟨hpc.1, hpc.2⟩),
      if_neg (by push_neg; exact ⟨hpt.1, hpt.2⟩)]
  · exact fun i hi => zero_se_z_nan n (sc i) (st i) hn (hsc i) (hst i) hi

/-- C5 witness: concrete instance with `n = 5`, both probabilities 0,
`alpha = 1/20`, one repetition, and the all-zero draw. -/
theorem C5_no_exception_witness :
    (0 < 5 ∧ (0 : ℝ) ≤ 0 ∧ (0 : ℝ) ≤ 1 ∧ (0 : ℝ) < 1 / 20 ∧ (1 : ℝ) / 20 < 1) ∧
    (calculate_power_checked 5 0 0 (1 / 20) 1 (fun _ => 0) (fun _ => 0)
        = .ok (calculate_power 5 0 0 (1 / 20) 1 (fun _ => 0) (fun _ => 0)) ∧
      ∀ i : Fin 1, pooled_se 5 (pooled_prob 5 0 0) = .val 0 →
        z_score 5 0 0 = .nan) :=
  ⟨by norm_num,
    C5_no_exception 5 0 0 (1 / 20) 1 (fun _ => 0) (fun _ => 0)
      (by norm_num) (by norm_num) (by norm_num) (by norm_num) (by norm_num)
      (fun _ => by norm_num) (fun _ => by norm_num)⟩

lemma power_loop_foldl_eq {α : Type} (f : ℕ → Except String α)
    (sizes : List ℕ) :
    ∀ acc : List (ℕ × α) × List String,
      List.foldl (power_loop_step f) acc sizes =
        (acc.1 ++ sizes.filterMap fun n =>
            match f n with
            | .ok p => some (n, p)
            | .error _ => none,
         acc.2 ++ sizes.filterMap fun n =>
            match f n with
            | .ok _ => none
            | .error e => some (error_msg n e)) := by
  induction sizes with
  | nil => intro acc; simp
  | cons n ns ih =>
      intro acc
      rw [List.foldl_cons, ih]
      cases hfn : f n with
      | ok p => simp [power_loop_step, hfn]
      | error e => simp [power_loop_step, hfn]

lemma power_loop_eq {α : Type} (f : ℕ → Except String α) (sizes : List ℕ) :
    power_loop f sizes =
      (sizes.filterMap fun n =>
          match f n with
          | .ok p => some (n, p)
          | .error _ => none,
       sizes.filterMap fun n =>
          match f n with
          | .ok _ => none
          | .error e => some (error_msg n e)) := by
  rw [power_loop, power_loop_foldl_eq]
  simp

lemma power_loop_results_ok {α : Type} (f : ℕ → Except String α)
    (sizes : List ℕ) (m : ℕ) (q : α) :
    (m, q) ∈ (power_loop f sizes).1 ↔ m ∈ sizes ∧ f m = .ok q := by
  rw [power_loop_eq]
  simp only [List.mem_filterMap]
  constructor
  · rintro ⟨a, ha, hmatch⟩
    cases hfa : f a with
    | ok p =>
        rw [hfa] at hmatch
        simp only [Option.some.injEq, Prod.mk.injEq] at hmatch
        obtain ⟨rfl, rfl⟩ := hmatch
        exact ⟨ha, hfa⟩
    | error e => rw [hfa] at hmatch; exact absurd hmatch (by simp)
  · rintro ⟨hm, hok⟩
    exact ⟨m, hm, by rw [hok]⟩

lemma power_loop_all_ok {α : Type} (f : ℕ → Except String α) (g : ℕ → α) :
    ∀ sizes : List ℕ, (∀ n ∈ sizes, f n = .ok (g n)) →
      power_loop f sizes = (sizes.map fun n => (n, g n), []) := by
  intro sizes
  induction sizes with
  | nil => intro _; rfl
  | cons n ns ih =>
      intro h
      rw [power_loop_eq] at ih ⊢
      have hn := h n (by simp)
      have hns := ih fun m hm => h m (by simp [hm])
      simp only [Prod.mk.injEq] at hns
      simp [List.filterMap_cons, hn, hns.1, hns.2]

/-- C6: if estimation for some sample size raises, the driver loop catches
it — the report list contains the message built from that size and the
exception text, that size is omitted from the plot series, and every other
size's successful result is still present.  The loop is a total function,
so no exception propagates out of the run. -/
theorem C6_partial_failure {α : Type} (f : ℕ → Except String α)
    (sizes : List ℕ) (n₀ : ℕ) (e : String)
    (hmem : n₀ ∈ sizes) (herr : f n₀ = .error e) :
    error_msg n₀ e ∈ (power_loop f sizes).2 ∧
    (∀ p : α, (n₀, p) ∉ (power_loop f sizes).1) ∧
    (∀ m ∈ sizes, ∀ q : α, f m = .ok q → (m, q) ∈ (power_loop f sizes).1) := by
  refine ⟨?_, ?_, ?_⟩
  · rw [power_loop_eq]
    simp only [List.mem_filterMap]
    exact ⟨n₀, hmem, by rw [herr]⟩
  · intro p hp
    obtain ⟨-, hok⟩ := (power_loop_results_ok f sizes n₀ p).mp hp
    rw [herr] at hok
    exact Except.noConfusion hok
  · intro m hm q hok
    exact (power_loop_results_ok f sizes m q).mpr ⟨hm, hok⟩

/-- C6 witness: the estimator fails on size 1 with message "boom" and
succeeds on size 2 over the grid `[1, 2]`. -/
theorem C6_partial_failure_witness :
    ((1 ∈ [1, 2]) ∧
      (fun n => if n = 1 then Except.error "boom" else Except.ok n) 1
        = Except.error "boom") ∧
    (error_msg 1 "boom" ∈
      (power_loop (fun n => if n = 1 then Except.error "boom" else Except.ok n)
        [1, 2]).2 ∧
    (∀ p : ℕ, (1, p) ∉
      (power_loop (fun n => if n = 1 then Except.error "boom" else Except.ok n)
        [1, 2]).1) ∧
    (∀ m ∈ [1, 2], ∀ q : ℕ,
      (fun n => if n = 1 then Except.error "boom" else Except.ok n) m
          = Except.ok q →
        (m, q) ∈
          (power_loop
            (fun n => if n = 1 then Except.error "boom" else Except.ok n)
            [1, 2]).1)) :=
  ⟨⟨by decide, rfl⟩,
    C6_partial_failure (fun n => if n = 1 then Except.error "boom" else Except.ok n)
      [1, 2] 1 "boom" (by decide) rfl⟩

/-- C8: for every run of the driver with in-range slider probabilities, the
plot series handed to the plotting collaborator is the ordered list of
(sample size, power) pairs with exactly one pair per candidate sample size,
in the input order of the grid. -/
theorem C8_plot_series (p_control p_treatment : ℝ)
    (sc st : ℕ → Fin num_simulations → ℕ)
    (hpc : 0 ≤ p_control ∧ p_control ≤ 1)
    (hpt : 0 ≤ p_treatment ∧ p_treatment ≤ 1) :
    (plot_power_analysis p_control p_treatment sc st).1 =
      sample_sizes.map (fun n =>
        (n, calculate_power n p_control p_treatment alpha num_simulations
          (sc n) (st n))) ∧
    ((plot_power_analysis p_control p_treatment sc st).1).map Prod.fst
      = sample_sizes := by
  have hok : ∀ n ∈ sample_sizes,
      calculate_power_checked n p_control p_treatment alpha num_simulations
        (sc n) (st n)
        = .ok (calculate_power n p_control p_treatment alpha num_simulations
          (sc n) (st n)) := by
    intro n _
    rw [calculate_power_checked, if_neg (by push_neg; exact ⟨hpc.1, hpc.2⟩),
      if_neg (by push_neg; exact ⟨hpt.1, hpt.2⟩)]
  have h := power_loop_all_ok
    (fun n => calculate_power_checked n p_control p_treatment alpha
      num_simulations (sc n) (st n))
    (fun n => calculate_power n p_control p_treatment alpha num_simulations
      (sc n) (st n)) sample_sizes hok
  constructor
  · rw [plot_power_analysis, h]
  · rw [plot_power_analysis, h]
    simp only [List.map_map]
    exact List.map_id _

/-- C8 witness: concrete run with both slider probabilities `1/20` and the
all-zero draw oracle. -/
theorem C8_plot_series_witness :
    ((0 : ℝ) ≤ 1 / 20 ∧ (1 : ℝ) / 20 ≤ 1) ∧
    ((plot_power_analysis (1 / 20) (1 / 20) (fun _ _ => 0) (fun _ _ => 0)).1 =
      sample_sizes.map (fun n =>
        (n, calculate_power n (1 / 20) (1 / 20) alpha num_simulations
          (fun _ => 0) (fun _ => 0))) ∧
    ((plot_power_analysis (1 / 20) (1 / 20) (fun _ _ => 0) (fun _ _ => 0)).1).map
        Prod.fst = sample_sizes) :=
  ⟨by norm_num,
    C8_plot_series (1 / 20) (1 / 20) (fun _ _ => 0) (fun _ _ => 0)
      (by norm_num) (by norm_num)⟩

end

end Tmp
